import Mathlib

/-!
Verification of the engagement-consistency core of the skool-clone repository.

The definitions below are shallow embeddings of the TypeScript client handlers
(`src/src/components/Feed/Feed.tsx`, `src/src/components/Feed/PostDetail.tsx`,
`src/src/components/Courses/LessonViewer.tsx`, `src/src/lib/auth.ts`,
`src/src/components/Admin/InviteManagement.tsx`, the admin user-management
component) and of the SQL store functions and row-security policies
(`supabase/migrations/*`).  Machine integers are modelled as `Nat`/`Int`;
PostgreSQL `GREATEST(x - 1, 0)` on non-negative values coincides with
truncated `Nat` subtraction.  Strings (emails) are modelled as lists of
character code points.  Fallible paths are modelled with explicit result
inductives.  All definitions are executable so every theorem below can be
checked on concrete inputs by `decide`.
-/

/-- Roles of the `users` table: `role IN ('admin', 'moderator', 'member')`. -/
inductive Role where
  | member
  | moderator
  | admin
deriving DecidableEq

/-- Approval states of the `users` table:
`approval_status IN ('pending', 'approved', 'rejected')`. -/
inductive Approval where
  | pending
  | approved
  | rejected
deriving DecidableEq

/-- Outcome of `loginUser` (src/src/lib/auth.ts, lines 93-132): the catch
branch returns `success: false` (modelled `failure`); otherwise the function
returns `success: true` together with the computed `isPending` flag.  A
session with `isPending = false` is an unrestricted (full-privilege)
session. -/
inductive LoginResult where
  | failure
  | success (isPending : Bool)
deriving DecidableEq

/-- Shallow embedding of `loginUser` (src/src/lib/auth.ts, lines 93-132),
assuming the password check at the identity provider succeeds.  The function
reads only `approval_status` and `role` of the users row; it blocks login
only when `approval_status = rejected` and computes
`isPending = (approval_status = pending AND role = member)`.  The
`hasActiveBan` argument models whether the `user_bans` table holds an
`active = true` row for this user; the source never queries that table
during login, so the argument is unused. -/
def loginUser (approval_status : Approval) (role : Role) (hasActiveBan : Bool) :
    LoginResult :=
  if approval_status = Approval.rejected then LoginResult.failure
  else LoginResult.success
    (decide (approval_status = Approval.pending ∧ role = Role.member))

/-- Store-level operations that can touch an existing users row's
`approval_status`:
* `approve` — `handleApprove` (InviteManagement.tsx, lines 329-360) writes
  `approval_status = 'approved'` unconditionally;
* `reject` — `handleReject` (InviteManagement.tsx, lines 362-394) writes
  `approval_status = 'rejected'` unconditionally;
* `selfUpdate requested` — a user writing their own row; the row-security
  policy `"Users can update own non-sensitive profile fields"`
  (migration 20251107000000, lines 50-59) accepts the write only when the
  written `approval_status` equals the stored one, and rejects the whole
  write otherwise.

`registerUser` only inserts a fresh row with status `pending`; it is not a
transition of an existing row. -/
inductive ApprovalOp where
  | approve
  | reject
  | selfUpdate (requested : Approval)
deriving DecidableEq

/-- One step of the approval state machine, per the operations above. -/
def applyApprovalOp (s : Approval) : ApprovalOp → Approval
  | ApprovalOp.approve => Approval.approved
  | ApprovalOp.reject => Approval.rejected
  | ApprovalOp.selfUpdate requested => if requested = s then requested else s

/-- A sequence of approval operations applied in order. -/
def execApproval (s : Approval) (ops : List ApprovalOp) : Approval :=
  ops.foldl applyApprovalOp s

/-- A users row as the update policies see it.  `name` stands in for the
non-sensitive profile fields (name, username, avatar, bio, last_active);
`role` and `approval_status` are the sensitive fields the policies guard. -/
structure ProfileRow where
  name : Nat
  role : Role
  approval_status : Approval
deriving DecidableEq

/-- Shallow embedding of an authenticated user updating their OWN `users`
row, under the permissive row-security policies of migration
20251107000000 (kept equivalent by migration 20251108000000):
* `"Users can update own non-sensitive profile fields"` permits the write
  iff the written `role` and `approval_status` equal the stored ones;
* `"Admins can update any user profile"` permits any write when
  `is_admin()` holds (the helper reads the statement snapshot, i.e. the
  stored row);
* `"Moderators can update user profiles except roles"` applies to a
  moderator that is not an admin; its check compares the written sensitive
  fields against a scalar subquery over `users` whose correlation is
  shadowed, so it errors out (aborting the statement, hence rejecting the
  write) as soon as the table holds more than one row — modelled by
  requiring `othersExist = false`.
Permissive policies are disjoined; a write no policy permits fails, and a
failed UPDATE applies none of its fields. -/
def selfUpdate (stored written : ProfileRow) (othersExist : Bool) : ProfileRow :=
  if stored.role = Role.admin
      ∨ (written.role = stored.role ∧ written.approval_status = stored.approval_status)
      ∨ (stored.role = Role.moderator ∧ othersExist = false
          ∧ written.role = stored.role ∧ written.approval_status = stored.approval_status)
  then written else stored

/-- ASCII lower-casing of one character code point, as
`String.prototype.toLowerCase` acts on the ASCII range used by the
registration flow: code points 65-90 (A-Z) map to 97-122 (a-z). -/
def toLowerChar (c : Nat) : Nat :=
  if 65 ≤ c ∧ c ≤ 90 then c + 32 else c

/-- `email.toLowerCase()` on an email modelled as its list of code points. -/
def lowerEmail (e : List Nat) : List Nat :=
  e.map toLowerChar

/-- Store state the registration flow touches: the permanent deny-list
(`banned_emails.email`, migration 20251107004042) and the emails of the
rows of the `users` table. -/
structure RegState where
  banned_emails : List (List Nat)
  users : List (List Nat)
deriving DecidableEq

/-- Outcome of `registerUser`: `validationError` for the early throws on
missing fields or a short password, `denied` for the deny-list throw
("This email address is not allowed to register."), `registered` for the
successful path. -/
inductive RegResult where
  | validationError
  | denied
  | registered
deriving DecidableEq

/-- Shallow embedding of `registerUser` (src/src/lib/auth.ts, lines 18-70),
assuming the identity provider accepts the sign-up.  The deny-list check
runs `banned_emails.select().eq('email', email.toLowerCase()).maybeSingle()`
— an exact match of the LOWERCASED submitted email against the stored
entries — before any insert; only when it finds no row is the users row
inserted. -/
def registerUser (st : RegState) (email password name : List Nat) :
    RegState × RegResult :=
  if email = [] ∨ password = [] ∨ name = [] then (st, RegResult.validationError)
  else if password.length < 6 then (st, RegResult.validationError)
  else if lowerEmail email ∈ st.banned_emails then (st, RegResult.denied)
  else ({ st with users := st.users ++ [email] }, RegResult.registered)

/-- The store state one `handleLike` call (Feed.tsx, lines 65-97) touches for
one (post, user) pair: whether the `post_likes` row exists, the post's
`likes_count`, and the user's stored `points`. -/
structure PostLikeSession where
  liked : Bool
  likes_count : Nat
  points : Int
deriving DecidableEq

/-- Shallow embedding of one `handleLike` call (Feed.tsx, lines 65-97) run
to completion.  The branch is chosen by reading the caller's own
`post_likes` row.  `likes_count` moves through the atomic SQL helpers
`increment_post_likes` / `decrement_post_likes`
(migration 20251107004522, lines 17-39); `GREATEST(likes_count - 1, 0)` is
truncated `Nat` subtraction.  The points write is
`update({ points: currentUser.points ± 2 })`: it stores CLIENT-COMPUTED
content, where `cachedPoints` is the `currentUser.points` value the React
component was mounted with — the component never refreshes it. -/
def handleLike (cachedPoints : Int) (s : PostLikeSession) : PostLikeSession :=
  if s.liked then
    { liked := false, likes_count := s.likes_count - 1, points := cachedPoints - 2 }
  else
    { liked := true, likes_count := s.likes_count + 1, points := cachedPoints + 2 }

/-- The store state `handleMarkComplete` touches for one (user, lesson)
pair: whether a `user_progress` row exists and the user's stored points. -/
structure LessonProgress where
  completedRow : Bool
  points : Int
deriving DecidableEq

/-- Shallow embedding of `handleMarkComplete` (LessonViewer.tsx, lines
71-109).  When the client-side `isCompleted` flag is set the call returns at
once; otherwise the progress row is upserted with `completed = true` and —
regardless of whether a row already existed — the user's points are
rewritten to `currentUser.points + lesson.points` from the client cache. -/
def handleMarkComplete (cachedPoints lessonPoints : Int) (isCompletedClient : Bool)
    (s : LessonProgress) : LessonProgress :=
  if isCompletedClient then s
  else { completedRow := true, points := cachedPoints + lessonPoints }

/-- The store state `handleSubmitComment` touches: the comment rows of the
post (by id) and the post's stored `comments_count`. -/
structure PostDB where
  comments : List Nat
  comments_count : Nat
deriving DecidableEq

/-- Shallow embedding of `handleSubmitComment` (PostDetail.tsx, lines
60-92): insert the comment row, then write
`update({ comments_count: post.comments_count + 1 })` — the stored counter
is OVERWRITTEN with a value computed in the client from `cachedCount`, the
`post.comments_count` the component was mounted with. -/
def handleSubmitComment (cachedCount : Nat) (newId : Nat) (db : PostDB) : PostDB :=
  { comments := db.comments ++ [newId], comments_count := cachedCount + 1 }

/-- Modelled from the spec: section 4.2 `adjust(entityId, comments_count, +1)`
— a single atomic increment applied to the STORED value, the shape the
repository implements for `posts.likes_count` (`increment_post_likes`) and
`comments.replies_count` (`increment_comment_replies`) but not for
`posts.comments_count`. -/
def adjustCommentsCountAtomic (db : PostDB) : PostDB :=
  { db with comments_count := db.comments_count + 1 }

/-- A row of the `comments` table: `id`, `parent_id` (self-reference with
`ON DELETE CASCADE`, threaded-comments migration) and the derived
`replies_count`. -/
structure CommentRow where
  id : Nat
  parent_id : Option Nat
  replies_count : Nat
deriving DecidableEq

/-- The `parent_id` of the comment row with the given id, if any. -/
def parentOf (cs : List CommentRow) (i : Nat) : Option Nat :=
  match cs.find? (fun c => c.id = i) with
  | none => none
  | some c => c.parent_id

/-- The chain of ancestors of comment `i` obtained by following `parent_id`,
with enough fuel to exhaust any acyclic table. -/
def ancestorChain (cs : List CommentRow) : Nat → Nat → List Nat
  | 0, _ => []
  | fuel + 1, i =>
    match parentOf cs i with
    | none => []
    | some p => p :: ancestorChain cs fuel p

/-- Whether comment `i` is a strict descendant of `root` (at any depth). -/
def isDescendantOf (cs : List CommentRow) (root i : Nat) : Bool :=
  decide (root ∈ ancestorChain cs cs.length i)

/-- The rows the query `.select('id').eq('parent_id', commentId)` returns:
the DIRECT replies only (PostDetail.tsx, lines 138-141). -/
def directReplies (cs : List CommentRow) (commentId : Nat) : List CommentRow :=
  cs.filter (fun c => c.parent_id = some commentId)

/-- Effect of `comments.delete().eq('id', commentId)` at the store: the
`ON DELETE CASCADE` on `parent_id` removes the row and every descendant at
every depth. -/
def cascadeDelete (cs : List CommentRow) (commentId : Nat) : List CommentRow :=
  cs.filter (fun c => ¬(c.id = commentId ∨ isDescendantOf cs commentId c.id = true))

/-- The number of strict descendants (all depths) of `root` — the N of the
claim about deletion. -/
def descendantCount (cs : List CommentRow) (root : Nat) : Nat :=
  (cs.filter (fun c => isDescendantOf cs root c.id)).length

/-- The SQL helper `decrement_comment_replies(comment_id)`:
`SET replies_count = GREATEST(0, replies_count - 1)` on one row. -/
def decrementRepliesCount (cs : List CommentRow) (pid : Nat) : List CommentRow :=
  cs.map (fun c => if c.id = pid then { c with replies_count := c.replies_count - 1 } else c)

/-- The store state `handleDeleteComment` touches: the comment rows of the
post and the post's stored `comments_count`. -/
structure PostThread where
  comments : List CommentRow
  comments_count : Nat
deriving DecidableEq

/-- Shallow embedding of `handleDeleteComment` (PostDetail.tsx, lines
133-163): count the DIRECT replies, compute `deletionCount = 1 + replies`,
delete the row (the store cascades to every depth), decrement the parent's
`replies_count` when `parentId` is present, and write
`comments_count = Math.max(0, post.comments_count - deletionCount)` — here
`comments_count` is the client-cached value of the post prop, equal to the
stored one when the session is alone. -/
def handleDeleteComment (s : PostThread) (commentId : Nat) (parentId : Option Nat) :
    PostThread :=
  let deletionCount := 1 + (directReplies s.comments commentId).length
  let remaining := cascadeDelete s.comments commentId
  let remaining2 :=
    match parentId with
    | some p => decrementRepliesCount remaining p
    | none => remaining
  { comments := remaining2, comments_count := s.comments_count - deletionCount }

/-- The individual store operations a `handleLike` call issues that touch
the shared (post, likes) state: mutating the caller's `post_likes` row and
the two atomic counter helpers.  The points write touches only the caller's
own users row and is irrelevant to `likes_count`. -/
inductive LikeAction where
  | addLike (u : Nat)
  | removeLike (u : Nat)
  | incr
  | decr
deriving DecidableEq

/-- The shared state of one post: the set of users holding a `post_likes`
row (`UNIQUE(post_id, user_id)`, schema migration lines 119-126) and the
stored `likes_count`. -/
structure PostLikeState where
  likes : Finset Nat
  likesCount : Nat

/-- One atomic store operation.  `decr` is `decrement_post_likes`, i.e.
`GREATEST(likes_count - 1, 0)`: truncated `Nat` subtraction. -/
def likeStep (s : PostLikeState) : LikeAction → PostLikeState
  | LikeAction.addLike u => { s with likes := insert u s.likes }
  | LikeAction.removeLike u => { s with likes := s.likes.erase u }
  | LikeAction.incr => { s with likesCount := s.likesCount + 1 }
  | LikeAction.decr => { s with likesCount := s.likesCount - 1 }

/-- Run a sequence of atomic store operations. -/
def likeExec (s : PostLikeState) : List LikeAction → PostLikeState
  | [] => s
  | a :: l => likeExec (likeStep s a) l

/-- The store operations one `toggleLike` call by user `u` issues, given the
initial like set `L0`.  The call first reads the caller's OWN `post_likes`
row; since every concurrent caller is a distinct user, no other call touches
that row, so the read returns the initial membership regardless of the
interleaving. -/
def toggleScript (L0 : Finset Nat) (u : Nat) : List LikeAction :=
  if u ∈ L0 then [LikeAction.removeLike u, LikeAction.decr]
  else [LikeAction.addLike u, LikeAction.incr]

/-- Whether an action is the atomic increment `increment_post_likes`. -/
def isIncr : LikeAction → Bool
  | LikeAction.incr => true
  | _ => false

/-- Whether an action is the atomic decrement `decrement_post_likes`. -/
def isDecr : LikeAction → Bool
  | LikeAction.decr => true
  | _ => false

/-- Number of `incr` operations in a schedule. -/
def countIncr (l : List LikeAction) : Nat :=
  (l.filter isIncr).length

/-- Number of `decr` operations in a schedule. -/
def countDecr (l : List LikeAction) : Nat :=
  (l.filter isDecr).length

/-- The number of users whose LAST action on the post was a like: the
togglers that were not in the initial like set (their toggle liked), plus
the initial likers that did not toggle (their last action was the like that
put them in `L0`). -/
def lastActionLikers (L0 : Finset Nat) (S : List Nat) : Nat :=
  (S.filter (fun u => decide (u ∉ L0))).length + (L0.filter (fun u => u ∉ S)).card

/-- Claim C2 (code bug): the claim says stored points always equal
`max(0, sum of deltas)` and never dip below 0.  The code computes every
points write in the client from the mount-time cache.  Failing input: a user
with stored points 0 and two Feed sessions both mounted at `points = 0`;
the user likes the post in one session (delta +2), then toggles it off in
the other (delta -2).  The sum of deltas is 0, so the claim demands
`max(0, 0) = 0`; the code stores `cachedPoints - 2 = -2`, which is also
below 0. -/
theorem points_not_event_sum :
    (handleLike 0 (handleLike 0 ⟨false, 0, 0⟩)).points = -2
    ∧ (handleLike 0 (handleLike 0 ⟨false, 0, 0⟩)).points < 0
    ∧ max (0 : Int) (2 + -2) = 0 := by decide

/-- Claim C3 (code bug): the claim says deleting a comment with N
descendants (all depths) decreases `comments_count` by N + 1.  Failing
input: the chain comment 1 with child 2 and grandchild 3, and
`comments_count = 3`.  Comment 1 has N = 2 descendants and the cascade
removes all three rows, but `handleDeleteComment` counts only the DIRECT
replies (`deletionCount = 1 + 1 = 2`) and leaves `comments_count = 1`
although zero comments remain; the claim demands `3 - (N + 1) = 0`. -/
theorem deleteComment_subtree_undercount :
    descendantCount [⟨1, none, 1⟩, ⟨2, some 1, 1⟩, ⟨3, some 2, 0⟩] 1 = 2
    ∧ (handleDeleteComment ⟨[⟨1, none, 1⟩, ⟨2, some 1, 1⟩, ⟨3, some 2, 0⟩], 3⟩ 1 none).comments
        = []
    ∧ (handleDeleteComment ⟨[⟨1, none, 1⟩, ⟨2, some 1, 1⟩, ⟨3, some 2, 0⟩], 3⟩ 1 none).comments_count
        = 1 := by decide

/-- Claim C4 (code bug): the claim says every counter mutation is a single
atomic increment of the stored value, never a client-computed overwrite.
Failing input: two sessions both mounted with `post.comments_count = 0`
each submit one comment.  `handleSubmitComment` overwrites the counter with
the client-computed `0 + 1` both times: two comment rows exist but the
stored counter is 1 — the lost update.  The spec-mandated atomic
increment applied twice yields 2. -/
theorem commentsCount_lost_update :
    (handleSubmitComment 0 2 (handleSubmitComment 0 1 ⟨[], 0⟩)).comments = [1, 2]
    ∧ (handleSubmitComment 0 2 (handleSubmitComment 0 1 ⟨[], 0⟩)).comments_count = 1
    ∧ (adjustCommentsCountAtomic (adjustCommentsCountAtomic ⟨[], 0⟩)).comments_count = 2 := by
  decide

/-- Claim C5, counterexample to the claim as stated: the deny-list holds
exactly the submitted email `X@y` (code points [88, 64, 121], with an
uppercase X), yet registration SUCCEEDS and a users row is created, because
`registerUser` compares only the lowercased submission `x@y` against the
stored entries. -/
theorem registerUser_denylist_case_cex :
    [88, 64, 121] ∈ (RegState.mk [[88, 64, 121]] []).banned_emails
    ∧ (registerUser ⟨[[88, 64, 121]], []⟩ [88, 64, 121] [49, 50, 51, 52, 53, 54] [97]).2
        = RegResult.registered
    ∧ (registerUser ⟨[[88, 64, 121]], []⟩ [88, 64, 121] [49, 50, 51, 52, 53, 54] [97]).1.users
        = [[88, 64, 121]] := by decide

/-- Claim C5 as amended: for every registration attempt passing the basic
input validation whose LOWERCASED submitted email appears verbatim in the
permanent deny-list, `registerUser` fails with the deny-list-specific error
and the store — in particular the users table — is unchanged. -/
theorem registerUser_denylist_lowercase_blocks (st : RegState)
    (email password name : List Nat)
    (he : email ≠ []) (hp : 6 ≤ password.length) (hn : name ≠ [])
    (hban : lowerEmail email ∈ st.banned_emails) :
    registerUser st email password name = (st, RegResult.denied) := by
  have hpne : password ≠ [] := by
    intro h
    rw [h] at hp
    simp at hp
  unfold registerUser
  rw [if_neg (by simp [he, hpne, hn]), if_neg (by omega), if_pos hban]

/-- Witness for C5: the deny-list holds `x@y`; submitting `X@y` (with a
six-character password and a name) is refused with the deny-list error and
the state is returned unchanged. -/
theorem registerUser_denylist_lowercase_blocks_witness :
    registerUser ⟨[[120, 64, 121]], []⟩ [88, 64, 121] [49, 50, 51, 52, 53, 54] [97]
      = (⟨[[120, 64, 121]], []⟩, RegResult.denied) :=
  registerUser_denylist_lowercase_blocks _ _ _ _ (by decide) (by decide) (by decide)
    (by decide)

/-- Claim C6 (code bug): the claim says a user with an active Ban record
cannot authenticate with full privileges.  `loginUser` never reads the
`user_bans` table: an approved user with an active ban row receives an
unrestricted session (`success` with `isPending = false`), whatever their
role. -/
theorem loginUser_ignores_active_ban :
    loginUser Approval.approved Role.member true = LoginResult.success false
    ∧ loginUser Approval.approved Role.admin true = LoginResult.success false := by decide

/-- Claim C8, counterexample to the claim as stated: an ADMIN updating
their own profile row with a write whose role differs from the stored one
(demoting themselves to member, and changing a non-sensitive field too) is
let through in full by the permissive policy
`"Admins can update any user profile"` — the write is not rejected. -/
theorem selfUpdate_admin_role_change_cex :
    selfUpdate ⟨0, Role.admin, Approval.approved⟩ ⟨1, Role.member, Approval.approved⟩ true
      = ⟨1, Role.member, Approval.approved⟩ := by decide

/-- Claim C8 as amended: for every self-update by a user whose stored role
is NOT admin, if the written role or approval_status differs from the
stored value, the entire write is rejected and no field of the row changes. -/
theorem selfUpdate_nonadmin_sensitive_rejected (stored written : ProfileRow)
    (othersExist : Bool)
    (hrole : stored.role ≠ Role.admin)
    (hch : written.role ≠ stored.role ∨ written.approval_status ≠ stored.approval_status) :
    selfUpdate stored written othersExist = stored := by
  unfold selfUpdate
  rw [if_neg]
  rintro (h | ⟨h1, h2⟩ | ⟨_, _, h1, h2⟩)
  · exact hrole h
  · rcases hch with hc | hc
    · exact hc h1
    · exact hc h2
  · rcases hch with hc | hc
    · exact hc h1
    · exact hc h2

/-- Witness for C8: a member trying to write role admin and approval
approved onto their own pending row has the whole write rejected: the row
keeps every stored field. -/
theorem selfUpdate_nonadmin_sensitive_rejected_witness :
    selfUpdate ⟨0, Role.member, Approval.pending⟩ ⟨0, Role.admin, Approval.approved⟩ false
      = ⟨0, Role.member, Approval.pending⟩ :=
  selfUpdate_nonadmin_sensitive_rejected _ _ _ (by decide) (Or.inl (by decide))

/-- Claim C9, counterexample to the claim as stated: liking an
already-liked post is NOT without additional effect — the second
`handleLike` call for the same (post, user) removes the like and changes
`likes_count` from 1 to 0. -/
theorem handleLike_not_idempotent_cex :
    (handleLike 2 ⟨true, 1, 2⟩).likes_count = 0
    ∧ (handleLike 2 ⟨true, 1, 2⟩).liked = false := by decide

/-- Claim C9 as amended: mutating operations are not idempotent at the
business-key level.  `handleLike` is a toggle: a second call for the same
(post, user) INVERTS the first — given the invariant that a liked post has
`likes_count` at least 1, and point caches read fresh before each call, two
successive calls restore the original like record, `likes_count` and
points exactly.  And the lesson point award is not keyed to the lesson:
re-running `handleMarkComplete` (stale client `isCompleted` flag, fresh
point cache) adds `lesson.points` a second time. -/
theorem handleLike_involution_and_double_award (s : PostLikeSession) (c1 c2 p0 lp : Int)
    (hcount : s.liked = true → 1 ≤ s.likes_count)
    (hc1 : c1 = s.points) (hc2 : c2 = (handleLike c1 s).points) :
    handleLike c2 (handleLike c1 s) = s
    ∧ (handleMarkComplete (p0 + lp) lp false (handleMarkComplete p0 lp false ⟨false, p0⟩)).points
        = p0 + lp + lp := by
  subst hc1
  subst hc2
  refine ⟨?_, by simp [handleMarkComplete]⟩
  obtain ⟨liked, n, pts⟩ := s
  cases liked
  · simp [handleLike]
  · have hn : 1 ≤ n := hcount rfl
    simp [handleLike]
    omega

/-- Witness for C9: from an unliked post with count 0 and points 0, liking
(cache 0) and toggling again (fresh cache 2) restores the state exactly,
and marking a ten-point lesson complete twice stores twenty points. -/
theorem handleLike_involution_and_double_award_witness :
    handleLike 2 (handleLike 0 ⟨false, 0, 0⟩) = ⟨false, 0, 0⟩
    ∧ (handleMarkComplete (0 + 10) 10 false (handleMarkComplete 0 10 false ⟨false, 0⟩)).points
        = 0 + 10 + 10 :=
  handleLike_involution_and_double_award ⟨false, 0, 0⟩ 0 2 0 10 (by decide) (by decide)
    (by decide)

/-- Claim C7: in the approval state machine, the path
pending → rejected → approved is realised by `handleReject` followed by
`handleApprove`, and no sequence of the available operations ever ends in
`pending` unless it started there — in particular no reachable step takes
`approved` to `pending`. -/
theorem approval_path_and_no_revert_to_pending :
    execApproval Approval.pending [ApprovalOp.reject] = Approval.rejected
    ∧ execApproval Approval.pending [ApprovalOp.reject, ApprovalOp.approve] = Approval.approved
    ∧ ∀ (s : Approval) (ops : List ApprovalOp),
        execApproval s ops = Approval.pending → s = Approval.pending := by
  refine ⟨rfl, rfl, ?_⟩
  intro s ops
  induction ops generalizing s with
  | nil => exact fun h => h
  | cons a rest ih =>
    intro h
    have h2 : applyApprovalOp s a = Approval.pending := ih (applyApprovalOp s a) h
    cases a with
    | approve => simp [applyApprovalOp] at h2
    | reject => simp [applyApprovalOp] at h2
    | selfUpdate requested =>
      simp only [applyApprovalOp] at h2
      split at h2
      · next heq => rw [← heq]; exact h2
      · exact h2

/-- Helper: ASCII lower-casing is idempotent on code points. -/
theorem toLowerChar_idem (c : Nat) : toLowerChar (toLowerChar c) = toLowerChar c := by
  unfold toLowerChar
  split
  · next h => rw [if_neg (by omega)]
  · rfl

/-- Claim C10: the deny-list check of `registerUser` lowercases the
submitted email and compares it for exact equality against the stored
entries.  For inputs passing the basic validation: (1) registration is
refused with the deny-list error iff the lowercased email appears verbatim
in `banned_emails`; (2) a submission differing from a stored lowercase
entry only in letter case is still blocked; (3) an entry stored with any
uppercase character is never matched by the check, for any submission. -/
theorem registerUser_denycheck_casefold (st : RegState) (email password name : List Nat)
    (he : email ≠ []) (hp : 6 ≤ password.length) (hn : name ≠ []) :
    ((registerUser st email password name).2 = RegResult.denied
        ↔ lowerEmail email ∈ st.banned_emails)
    ∧ (∀ b ∈ st.banned_emails, b = lowerEmail b → lowerEmail email = lowerEmail b →
        (registerUser st email password name).2 = RegResult.denied)
    ∧ (∀ b ∈ st.banned_emails, (∃ c ∈ b, toLowerChar c ≠ c) → lowerEmail email ≠ b) := by
  have hpne : password ≠ [] := by
    intro h
    rw [h] at hp
    simp at hp
  have hiff : (registerUser st email password name).2 = RegResult.denied
      ↔ lowerEmail email ∈ st.banned_emails := by
    unfold registerUser
    rw [if_neg (by simp [he, hpne, hn]), if_neg (by omega)]
    by_cases hb : lowerEmail email ∈ st.banned_emails
    · simp [hb]
    · simp [hb]
  refine ⟨hiff, ?_, ?_⟩
  · intro b hb hlow heq
    refine hiff.mpr ?_
    rw [heq, ← hlow]
    exact hb
  · rintro b hb ⟨c, hc, hne⟩ heq
    apply hne
    have hmem : c ∈ lowerEmail email := by rw [heq]; exact hc
    unfold lowerEmail at hmem
    obtain ⟨d, _, hdc⟩ := List.mem_map.mp hmem
    rw [← hdc]
    exact toLowerChar_idem d

/-- Witness for C10: with the deny-list holding `x@y`, submitting `X@y`
(valid password and name) is refused with the deny-list error. -/
theorem registerUser_denycheck_casefold_witness :
    (registerUser ⟨[[120, 64, 121]], []⟩ [88, 64, 121] [49, 50, 51, 52, 53, 54] [97]).2
      = RegResult.denied :=
  (registerUser_denycheck_casefold ⟨[[120, 64, 121]], []⟩ [88, 64, 121]
    [49, 50, 51, 52, 53, 54] [97] (by decide) (by decide) (by decide)).1.mpr (by decide)

/-- Helper: increment counting distributes over schedule concatenation. -/
theorem countIncr_append (l1 l2 : List LikeAction) :
    countIncr (l1 ++ l2) = countIncr l1 + countIncr l2 := by
  simp [countIncr, List.filter_append]

/-- Helper: decrement counting distributes over schedule concatenation. -/
theorem countDecr_append (l1 l2 : List LikeAction) :
    countDecr (l1 ++ l2) = countDecr l1 + countDecr l2 := by
  simp [countDecr, List.filter_append]

/-- Helper: permuted schedules hold the same number of increments. -/
theorem countIncr_perm {l1 l2 : List LikeAction} (h : l1.Perm l2) :
    countIncr l1 = countIncr l2 := by
  unfold countIncr
  exact (h.filter _).length_eq

/-- Helper: permuted schedules hold the same number of decrements. -/
theorem countDecr_perm {l1 l2 : List LikeAction} (h : l1.Perm l2) :
    countDecr l1 = countDecr l2 := by
  unfold countDecr
  exact (h.filter _).length_eq

/-- Helper: one toggle issues one decrement when its user starts liked,
none otherwise. -/
theorem countDecr_toggleScript (L0 : Finset Nat) (u : Nat) :
    countDecr (toggleScript L0 u) = if u ∈ L0 then 1 else 0 := by
  by_cases h : u ∈ L0
  · simp only [toggleScript, if_pos h]
    rfl
  · simp only [toggleScript, if_neg h]
    rfl

/-- Helper: one toggle issues one increment when its user starts unliked,
none otherwise. -/
theorem countIncr_toggleScript (L0 : Finset Nat) (u : Nat) :
    countIncr (toggleScript L0 u) = if u ∈ L0 then 0 else 1 := by
  by_cases h : u ∈ L0
  · simp only [toggleScript, if_pos h]
    rfl
  · simp only [toggleScript, if_neg h]
    rfl

/-- Helper: over a full set of toggle calls, the decrements are exactly the
togglers that start liked. -/
theorem countDecr_flatMap (L0 : Finset Nat) (S : List Nat) :
    countDecr (S.flatMap (toggleScript L0))
      = (S.filter (fun u => decide (u ∈ L0))).length := by
  induction S with
  | nil => rfl
  | cons u S ih =>
    rw [List.flatMap_cons, countDecr_append, countDecr_toggleScript, ih, List.filter_cons]
    by_cases h : u ∈ L0
    · simp [h]
      omega
    · simp [h]

/-- Helper: over a full set of toggle calls, the increments are exactly the
togglers that start unliked. -/
theorem countIncr_flatMap (L0 : Finset Nat) (S : List Nat) :
    countIncr (S.flatMap (toggleScript L0))
      = (S.filter (fun u => decide (u ∉ L0))).length := by
  induction S with
  | nil => rfl
  | cons u S ih =>
    rw [List.flatMap_cons, countIncr_append, countIncr_toggleScript, ih, List.filter_cons]
    by_cases h : u ∈ L0
    · simp [h]
    · simp [h]
      omega

/-- Helper: the likes counter after any schedule whose total decrements
stay within the initial count; since `decr` is the clamped
`GREATEST(likes_count - 1, 0)`, the bound guarantees no clamping loss. -/
theorem likeExec_likesCount (l : List LikeAction) :
    ∀ (L : Finset Nat) (c : Nat), countDecr l ≤ c →
      (likeExec ⟨L, c⟩ l).likesCount = c + countIncr l - countDecr l := by
  induction l with
  | nil =>
    intro L c _
    rfl
  | cons a l ih =>
    intro L c h
    cases a with
    | addLike u =>
      have hd : countDecr (LikeAction.addLike u :: l) = countDecr l := rfl
      rw [hd] at h
      rw [hd]
      exact ih (insert u L) c h
    | removeLike u =>
      have hd : countDecr (LikeAction.removeLike u :: l) = countDecr l := rfl
      rw [hd] at h
      rw [hd]
      exact ih (L.erase u) c h
    | incr =>
      have hd : countDecr (LikeAction.incr :: l) = countDecr l := rfl
      have hi : countIncr (LikeAction.incr :: l) = countIncr l + 1 := rfl
      rw [hd] at h
      rw [hd, hi]
      have h2 := ih L (c + 1) (Nat.le_succ_of_le h)
      show (likeExec ⟨L, c + 1⟩ l).likesCount = c + (countIncr l + 1) - countDecr l
      omega
    | decr =>
      have hd : countDecr (LikeAction.decr :: l) = countDecr l + 1 := rfl
      rw [hd] at h
      rw [hd]
      have h2 := ih L (c - 1) (by omega)
      show (likeExec ⟨L, c - 1⟩ l).likesCount = c + countIncr l - (countDecr l + 1)
      omega

/-- Helper: for a duplicate-free toggler list, the togglers that start
liked are counted by the initial likers that toggle. -/
theorem filter_mem_length_eq (S : List Nat) (hS : S.Nodup) (L0 : Finset Nat) :
    (S.filter (fun u => decide (u ∈ L0))).length = (L0.filter (fun u => u ∈ S)).card := by
  have hnd : (S.filter (fun u => decide (u ∈ L0))).Nodup := hS.filter _
  rw [← List.toFinset_card_of_nodup hnd]
  congr 1
  ext x
  simp only [List.mem_toFinset, List.mem_filter, Finset.mem_filter, decide_eq_true_eq]
  exact and_comm

/-- Claim C1: start from a consistent post state — like set `L0` with
`likesCount = L0.card` — and let a duplicate-free list `S` of users each
issue one `toggleLike` call.  For EVERY schedule that is a permutation of
the concatenated per-call store operations (which covers every interleaving
of the concurrent calls, since an interleaving preserves each call's own
order), the final `likesCount` equals the number of users whose last action
on the post was a like. -/
theorem toggleLike_interleaving_count (L0 : Finset Nat) (S : List Nat)
    (l : List LikeAction) (hS : S.Nodup)
    (hl : l.Perm (S.flatMap (toggleScript L0))) :
    (likeExec ⟨L0, L0.card⟩ l).likesCount = lastActionLikers L0 S := by
  have hcd : countDecr l = (L0.filter (fun u => u ∈ S)).card := by
    rw [countDecr_perm hl, countDecr_flatMap, filter_mem_length_eq S hS L0]
  have hci : countIncr l = (S.filter (fun u => decide (u ∉ L0))).length := by
    rw [countIncr_perm hl, countIncr_flatMap]
  have hle : countDecr l ≤ L0.card := by
    rw [hcd]
    exact Finset.card_filter_le _ _
  have hsplit : (L0.filter (fun u => u ∈ S)).card + (L0.filter (fun u => u ∉ S)).card
      = L0.card := Finset.filter_card_add_filter_neg_card_eq_card _
  rw [likeExec_likesCount l L0 L0.card hle, hci, hcd]
  unfold lastActionLikers
  omega

/-- Witness for C1: the post starts liked by user 1 alone; users 1 and 2
each toggle once; the sequential schedule ends with `likesCount = 1`,
matching the single user whose last action was a like (user 2). -/
theorem toggleLike_interleaving_count_witness :
    (likeExec ⟨{1}, ({1} : Finset Nat).card⟩ ([1, 2].flatMap (toggleScript {1}))).likesCount
      = lastActionLikers {1} [1, 2] :=
  toggleLike_interleaving_count {1} [1, 2] _ (by decide) (List.Perm.refl _)
